import Mathlib

/-!
Shallow embedding of the task lifecycle engine of the LLM task orchestrator
(`backend/app/repositories/task_repository.py` and
`backend/app/services/task_service.py`).

The database session is modelled as an explicit state `DB` holding the task
rows and the append-only execution-attempt rows (list order = `created_at`
insertion order).  Each repository method becomes a pure function on `DB`;
SQLAlchemy row updates become positional list updates keyed by row id.
Timestamps are integers; `datetime.now` becomes an explicit `now` argument.
Service-level Python exceptions become an explicit `Option ServiceError`
result component, and broker (Celery) dispatch outcomes become explicit
boolean arguments.
-/

namespace Orchestrator

/-- `TaskStatus` enum from `app/models/task.py`. -/
inductive TaskStatus
  | pending
  | queued
  | running
  | completed
  | failed
  | cancelled
  deriving DecidableEq, Repr

/-- Task row (`tasks` table): the fields the lifecycle engine reads/writes. -/
structure Task where
  id : Nat
  name : String
  prompt : String
  status : TaskStatus
  startedAt : Option Int
  completedAt : Option Int
  output : Option String
  errorMessage : Option String
  retryCount : Nat
  maxRetries : Nat
  parentTaskId : Option Nat
  deriving DecidableEq, Repr

/-- TaskExecution row (`task_executions` table); `eid` is the row id,
`celeryTaskId` the dispatch correlation id. -/
structure TaskExecution where
  eid : Nat
  taskId : Nat
  attemptNumber : Nat
  status : TaskStatus
  celeryTaskId : String
  startedAt : Option Int
  completedAt : Option Int
  output : Option String
  errorMessage : Option String
  errorType : Option String
  workerId : Option String
  modelName : Option String
  promptTokens : Option Int
  completionTokens : Option Int
  totalTokens : Option Int
  deriving DecidableEq, Repr

/-- Database state: task rows plus the append-only execution log.
List position encodes `created_at` insertion order. -/
structure DB where
  tasks : List Task
  executions : List TaskExecution
  deriving DecidableEq, Repr

/-- The literal `"TaskCancelled"` written to `error_type` by `mark_cancelled`. -/
def taskCancelledType : String := "TaskCancelled"

/-- The literal cancellation reason passed by `TaskService.cancel_task`. -/
def cancelReason : String := "Task cancelled by user request"

/-- The literal `error_message` written when Celery submission fails. -/
def celerySubmitFailureMessage : String := "Failed to submit task to Celery"

/-- The literal `error_type` written when Celery submission fails. -/
def celerySubmitFailureType : String := "TaskEnqueueError"

/-- The empty string. -/
def emptyString : String := ""

namespace Repository

/-- `get_by_id` / `get_by_id_for_update`: first task row with the id. -/
def getById (db : DB) (tid : Nat) : Option Task :=
  db.tasks.find? (fun t => t.id = tid)

/-- Write back a mutated task row (SQLAlchemy identity-map update). -/
def updateTask (db : DB) (t' : Task) : DB :=
  { db with tasks := db.tasks.map (fun t => if t.id = t'.id then t' else t) }

/-- Write back a mutated execution row, keyed by row id. -/
def updateExecution (db : DB) (e' : TaskExecution) : DB :=
  { db with executions := db.executions.map (fun e => if e.eid = e'.eid then e' else e) }

/-- Append a freshly inserted execution row. -/
def insertExecution (db : DB) (e : TaskExecution) : DB :=
  { db with executions := db.executions ++ [e] }

/-- Fresh row id for a new execution row. -/
def freshEid (db : DB) : Nat :=
  db.executions.foldl (fun m e => max m e.eid) 0 + 1

/-- `get_latest_execution_for_task`: order by `(attempt_number DESC,
created_at DESC)`, limit 1 — the row with the maximal attempt number,
later-inserted rows winning ties. -/
def getLatestExecutionForTask (db : DB) (tid : Nat) : Option TaskExecution :=
  (db.executions.filter (fun e => e.taskId = tid)).foldl
    (fun best e =>
      match best with
      | none => some e
      | some b => if b.attemptNumber ≤ e.attemptNumber then some e else some b)
    none

/-- `_get_execution_by_celery_task_id`: order by `created_at DESC`, limit 1 —
the last-inserted row (across all tasks) carrying the dispatch id. -/
def getExecutionByCeleryTaskId (db : DB) (cid : String) : Option TaskExecution :=
  (db.executions.filter (fun e => e.celeryTaskId = cid)).getLast?

/-- `_is_latest_execution`: caller dispatch id against the latest attempt is. -/
def isLatestExecution (db : DB) (tid : Nat) (cid : String) : Bool :=
  match getLatestExecutionForTask db tid with
  | none => false
  | some latest => latest.celeryTaskId = cid

/-- `_resolve_completed_at`: `now` when `started_at` is null or `now ≥
started_at`, otherwise `started_at`. -/
def resolveCompletedAt (now : Int) (startedAt : Option Int) : Int :=
  match startedAt with
  | none => now
  | some s => if s ≤ now then now else s

/-- `_next_attempt_number`: `max(attempt_number) + 1` over the task's rows,
with the SQL `max` of an empty set read as 0. -/
def nextAttemptNumber (db : DB) (tid : Nat) : Nat :=
  (db.executions.filter (fun e => e.taskId = tid)).foldl
    (fun m e => max m e.attemptNumber) 0 + 1

/-- `enqueue_execution`: reset the task to `queued`, clear per-attempt task
fields, optionally bump `retry_count`, insert a new `queued` attempt row. -/
def enqueueExecution (db : DB) (tid : Nat) (cid : String)
    (incrementRetryCount : Bool) : Option DB :=
  match getById db tid with
  | none => none
  | some task =>
    let attemptNumber := nextAttemptNumber db tid
    let task' := { task with
      retryCount := if incrementRetryCount then task.retryCount + 1 else task.retryCount
      status := TaskStatus.queued
      startedAt := none
      completedAt := none
      output := none
      errorMessage := none }
    let db1 := updateTask db task'
    let execution : TaskExecution := {
      eid := freshEid db1
      taskId := task.id
      attemptNumber := attemptNumber
      status := TaskStatus.queued
      celeryTaskId := cid
      startedAt := none
      completedAt := none
      output := none
      errorMessage := none
      errorType := none
      workerId := none
      modelName := none
      promptTokens := none
      completionTokens := none
      totalTokens := none }
    some (insertExecution db1 execution)

/-- `mark_running`: no-op on a terminal task or a stale dispatch id;
otherwise move task and matching attempt to `running`. -/
def markRunning (db : DB) (tid : Nat) (cid : String) (workerId : Option String)
    (now : Int) : Option DB :=
  match getById db tid with
  | none => none
  | some task =>
    if task.status = TaskStatus.completed ∨ task.status = TaskStatus.failed ∨
        task.status = TaskStatus.cancelled then
      some db
    else if ¬ isLatestExecution db task.id cid then
      some db
    else
      let task' := { task with
        status := TaskStatus.running
        startedAt := some now
        completedAt := none
        errorMessage := none }
      let db1 := updateTask db task'
      match getExecutionByCeleryTaskId db1 cid with
      | none =>
        let execution : TaskExecution := {
          eid := freshEid db1
          taskId := task.id
          attemptNumber := nextAttemptNumber db1 task.id
          status := TaskStatus.running
          celeryTaskId := cid
          startedAt := some now
          completedAt := none
          output := none
          errorMessage := none
          errorType := none
          workerId := workerId
          modelName := none
          promptTokens := none
          completionTokens := none
          totalTokens := none }
        some (insertExecution db1 execution)
      | some execution =>
        some (updateExecution db1 { execution with
          status := TaskStatus.running
          startedAt := some now
          completedAt := none
          errorMessage := none
          errorType := none
          workerId := workerId })

/-- `mark_completed`: on a cancelled task only flip the matching attempt to
`cancelled`; no-op on completed/failed or a stale dispatch id; otherwise
complete task and attempt, recording output, usage metrics and
`completed_at = resolveCompletedAt`. -/
def markCompleted (db : DB) (tid : Nat) (cid : String) (output : String)
    (modelName : Option String) (promptTokens completionTokens totalTokens : Option Int)
    (now : Int) : Option DB :=
  match getById db tid with
  | none => none
  | some task =>
    if task.status = TaskStatus.cancelled then
      match getExecutionByCeleryTaskId db cid with
      | none => some db
      | some execution =>
        some (updateExecution db { execution with status := TaskStatus.cancelled })
    else if task.status = TaskStatus.completed ∨ task.status = TaskStatus.failed then
      some db
    else if ¬ isLatestExecution db task.id cid then
      some db
    else
      let task' := { task with
        status := TaskStatus.completed
        output := some output
        errorMessage := none
        completedAt := some (resolveCompletedAt now task.startedAt) }
      let db1 := updateTask db task'
      match getExecutionByCeleryTaskId db1 cid with
      | none => some db1
      | some execution =>
        some (updateExecution db1 { execution with
          status := TaskStatus.completed
          output := some output
          errorMessage := none
          errorType := none
          modelName := modelName
          promptTokens := promptTokens
          completionTokens := completionTokens
          totalTokens := totalTokens
          completedAt := some (resolveCompletedAt now execution.startedAt) })

/-- `mark_failed`: mirror of `mark_completed` with `failed`, recording
`error_message` and `error_type`. -/
def markFailed (db : DB) (tid : Nat) (cid : String) (errorMessage errorType : String)
    (now : Int) : Option DB :=
  match getById db tid with
  | none => none
  | some task =>
    if task.status = TaskStatus.cancelled then
      match getExecutionByCeleryTaskId db cid with
      | none => some db
      | some execution =>
        some (updateExecution db { execution with status := TaskStatus.cancelled })
    else if task.status = TaskStatus.completed ∨ task.status = TaskStatus.failed then
      some db
    else if ¬ isLatestExecution db task.id cid then
      some db
    else
      let task' := { task with
        status := TaskStatus.failed
        errorMessage := some errorMessage
        completedAt := some (resolveCompletedAt now task.startedAt) }
      let db1 := updateTask db task'
      match getExecutionByCeleryTaskId db1 cid with
      | none => some db1
      | some execution =>
        some (updateExecution db1 { execution with
          status := TaskStatus.failed
          errorMessage := some errorMessage
          errorType := some errorType
          completedAt := some (resolveCompletedAt now execution.startedAt) })

/-- `mark_cancelled`: force the task to `cancelled` with the given reason; if
the latest attempt is non-terminal, mirror it to `cancelled` with
`error_type = "TaskCancelled"`.  No latest-dispatch guard. -/
def markCancelled (db : DB) (tid : Nat) (reason : String) (now : Int) : Option DB :=
  match getById db tid with
  | none => none
  | some task =>
    let task' := { task with
      status := TaskStatus.cancelled
      errorMessage := some reason
      completedAt := some (resolveCompletedAt now task.startedAt) }
    let db1 := updateTask db task'
    match getLatestExecutionForTask db1 tid with
    | none => some db1
    | some execution =>
      if execution.status = TaskStatus.pending ∨ execution.status = TaskStatus.queued ∨
          execution.status = TaskStatus.running then
        some (updateExecution db1 { execution with
          status := TaskStatus.cancelled
          errorMessage := some reason
          errorType := some taskCancelledType
          completedAt := some (resolveCompletedAt now execution.startedAt) })
      else
        some db1

/-- Loop body of `list_ancestors`: the `while parent_id is not None and depth
<= max_depth` loop, with the remaining iteration budget `max_depth - depth + 1`
made explicit as `fuel` (the loop increments `depth` every iteration). -/
def listAncestorsAux (db : DB) (fuel : Nat) (parentId : Option Nat)
    (depth : Nat) : List (Task × Nat) :=
  match fuel with
  | 0 => []
  | fuel' + 1 =>
    match parentId with
    | none => []
    | some pid =>
      match getById db pid with
      | none => []
      | some parent =>
        (parent, depth) :: listAncestorsAux db fuel' parent.parentTaskId (depth + 1)

/-- `list_ancestors`: walk `parent_task_id` upward from the task, recording
`(ancestor, depth)` with depth starting at 1, until a null parent, a missing
row, or `max_depth`. -/
def listAncestors (db : DB) (tid : Nat) (maxDepth : Nat) : List (Task × Nat) :=
  match getById db tid with
  | none => []
  | some current => listAncestorsAux db maxDepth current.parentTaskId 1

/-- Children query of `list_descendants`: tasks whose `parent_task_id` is in
the frontier, in `created_at ASC` (insertion) order. -/
def childrenOf (db : DB) (frontier : List Nat) : List Task :=
  db.tasks.filter (fun t =>
    match t.parentTaskId with
    | none => false
    | some p => frontier.contains p)

/-- Loop body of `list_descendants`: the `while frontier and depth <=
max_depth` loop with the remaining iteration budget as `fuel`. -/
def listDescendantsAux (db : DB) (fuel : Nat) (frontier : List Nat)
    (depth : Nat) : List (Task × Nat) :=
  match fuel with
  | 0 => []
  | fuel' + 1 =>
    if frontier.isEmpty then []
    else
      let children := childrenOf db frontier
      if children.isEmpty then []
      else
        children.map (fun c => (c, depth)) ++
          listDescendantsAux db fuel' (children.map (fun c => c.id)) (depth + 1)

/-- `list_descendants`: breadth-first walk over `parent_task_id` starting from
the task, one level per depth, stopping at an empty level or `max_depth`. -/
def listDescendants (db : DB) (tid : Nat) (maxDepth : Nat) : List (Task × Nat) :=
  listDescendantsAux db maxDepth [tid] 1

/-- Case-insensitive `ILIKE %q%` against a non-null column. -/
def ilike (q s : String) : Bool :=
  decide (q.toLower.toList <:+: s.toLower.toList)

/-- `ILIKE` against a nullable column: SQL NULL never matches. -/
def ilikeOpt (q : String) (s : Option String) : Bool :=
  match s with
  | none => false
  | some v => ilike q v

/-- `_task_filters` applied to one row: optional status equality plus the
trimmed, non-empty text query matched case-insensitively against id, name,
prompt, output and error_message. -/
def taskMatchesFilters (statusFilter : Option TaskStatus) (query : Option String)
    (t : Task) : Bool :=
  (match statusFilter with
   | none => true
   | some s => t.status = s) &&
  (let normalizedQuery := (query.getD emptyString).trim
   if normalizedQuery = emptyString then true
   else
     ilike normalizedQuery (toString t.id) || ilike normalizedQuery t.name ||
       ilike normalizedQuery t.prompt || ilikeOpt normalizedQuery t.output ||
       ilikeOpt normalizedQuery t.errorMessage)

/-- `list`: filtered rows ordered by `created_at DESC` (reverse insertion
order) with offset/limit pagination, plus the filtered total count. -/
def list (db : DB) (limit offset : Nat) (statusFilter : Option TaskStatus)
    (query : Option String) : List Task × Nat :=
  let filtered := db.tasks.filter (taskMatchesFilters statusFilter query)
  let page := ((filtered.reverse).drop offset).take limit
  (page, filtered.length)

/-- `list_existing_task_ids`: the given ids that name an existing task row. -/
def listExistingTaskIds (db : DB) (taskIds : List Nat) : List Nat :=
  taskIds.filter (fun i => (getById db i).isSome)

/-- `create`: insert one `pending` task row with a fresh id and the model
defaults `retry_count = 0`, `max_retries = 3`. -/
def create (db : DB) (name prompt : String) (parentTaskId : Option Nat) : DB × Task :=
  let t : Task := {
    id := (db.tasks.map (fun x => x.id)).foldl (fun m x => max m x) 0 + 1
    name := name
    prompt := prompt
    status := TaskStatus.pending
    startedAt := none
    completedAt := none
    output := none
    errorMessage := none
    retryCount := 0
    maxRetries := 3
    parentTaskId := parentTaskId }
  ({ db with tasks := db.tasks ++ [t] }, t)

end Repository

/-- Python schema field names of `TaskListInput` and the attributes
`TaskService.list_tasks` reads. -/
def attrLimit : String := "limit"

/-- The `offset` field name of the `TaskListInput` schema. -/
def attrOffset : String := "offset"

/-- The `status_filter` attribute name read by `TaskService.list_tasks`. -/
def attrStatusFilter : String := "status_filter"

/-- The `query` attribute name read by `TaskService.list_tasks`. -/
def attrQuery : String := "query"

/-- `TaskListInput` (from `app/schemas/task.py`): the pydantic model declares
exactly the fields `limit` and `offset`. -/
structure TaskListInput where
  limit : Nat
  offset : Nat
  deriving DecidableEq, Repr

/-- A python attribute value (only numeric fields occur on `TaskListInput`). -/
inductive PyValue
  | natVal (n : Nat)
  deriving DecidableEq, Repr

/-- Pydantic attribute lookup on a `TaskListInput` instance: the declared
fields resolve to their values, any other attribute is absent (a read raises
`AttributeError`). -/
def TaskListInput.getAttr (d : TaskListInput) (attr : String) : Option PyValue :=
  if attr = attrLimit then some (PyValue.natVal d.limit)
  else if attr = attrOffset then some (PyValue.natVal d.offset)
  else none

/-- A python runtime error escaping the service layer. -/
inductive PyError
  | attributeError (attr : String)
  deriving DecidableEq, Repr

namespace TaskService

/-- Domain exceptions raised by `TaskService`. -/
inductive ServiceError
  | notFound
  | parentNotFound
  | enqueueError
  | retryNotAllowed
  | retryLimit
  | cancelNotAllowed
  deriving DecidableEq, Repr

/-- `TaskService.list_tasks`: forwards `data.limit`, `data.offset`,
`data.status_filter` and `data.query` to `Repository.list`.  The keyword
arguments are evaluated left to right, so the `status_filter` attribute is
read first among the undeclared ones; the success branch is unreachable for
this schema and only fixes the intended forwarding shape. -/
def listTasks (db : DB) (data : TaskListInput) : Except PyError (List Task × Nat) :=
  match TaskListInput.getAttr data attrStatusFilter with
  | none => Except.error (PyError.attributeError attrStatusFilter)
  | some _ =>
    match TaskListInput.getAttr data attrQuery with
    | none => Except.error (PyError.attributeError attrQuery)
    | some _ => Except.ok (Repository.list db data.limit data.offset none none)

/-- `TaskService._enqueue_llm_task`: persist a queued attempt first, then
dispatch to the broker (`dispatchOk` is the outcome of
`celery_app.send_task`); on dispatch failure mark the task/attempt failed and
raise `TaskEnqueueError`. -/
def enqueueLlmTask (db : DB) (tid : Nat) (cid : String)
    (incrementRetryCount : Bool) (dispatchOk : Bool) (now : Int) :
    DB × Option ServiceError :=
  match Repository.getById db tid with
  | none => (db, some ServiceError.notFound)
  | some task =>
    match Repository.enqueueExecution db task.id cid incrementRetryCount with
    | none => (db, some ServiceError.notFound)
    | some db1 =>
      if dispatchOk then (db1, none)
      else
        match Repository.markFailed db1 task.id cid celerySubmitFailureMessage
            celerySubmitFailureType now with
        | none => (db1, some ServiceError.enqueueError)
        | some db2 => (db2, some ServiceError.enqueueError)

/-- `TaskService.retry_task`: NotFound when absent, RetryNotAllowed unless
`failed`, RetryLimit when `retry_count ≥ max_retries`, otherwise enqueue and
dispatch a new attempt with `increment_retry_count=True`. -/
def retryTask (db : DB) (tid : Nat) (cid : String) (dispatchOk : Bool)
    (now : Int) : DB × Option ServiceError :=
  match Repository.getById db tid with
  | none => (db, some ServiceError.notFound)
  | some task =>
    if task.status ≠ TaskStatus.failed then
      (db, some ServiceError.retryNotAllowed)
    else if task.maxRetries ≤ task.retryCount then
      (db, some ServiceError.retryLimit)
    else
      enqueueLlmTask db task.id cid true dispatchOk now

/-- `TaskService.cancel_task`: NotFound when absent, CancelNotAllowed on a
terminal task; otherwise revoke the latest dispatch best-effort (a raising
revoke — `revokeRaises` — is caught, logged and swallowed, so it does not
touch the state) and force `mark_cancelled` with the literal reason. -/
def cancelTask (db : DB) (tid : Nat) (revokeRaises : Bool) (now : Int) :
    DB × Option ServiceError :=
  match Repository.getById db tid with
  | none => (db, some ServiceError.notFound)
  | some task =>
    if task.status = TaskStatus.completed ∨ task.status = TaskStatus.failed ∨
        task.status = TaskStatus.cancelled then
      (db, some ServiceError.cancelNotAllowed)
    else
      let _swallowedRevokeFailure := revokeRaises
      match Repository.markCancelled db task.id cancelReason now with
      | none => (db, some ServiceError.notFound)
      | some db1 => (db1, none)

/-- One item of `TaskBatchCreateInput`. -/
structure BatchItem where
  name : String
  prompt : String
  parentTaskId : Option Nat
  deriving DecidableEq, Repr

/-- Post-commit dispatch loop of `create_tasks_batch`: each staged
`(task_id, celery_task_id)` is dispatched best-effort (outcome in the third
component); a dispatch failure marks only that task failed with the Celery
enqueue-failure message and type. -/
def batchDispatchPhase (db : DB) (staged : List (Nat × String × Bool))
    (now : Int) : DB :=
  staged.foldl
    (fun acc d =>
      match d with
      | (tid, cid, ok) =>
        if ok then acc
        else
          match Repository.markFailed acc tid cid celerySubmitFailureMessage
              celerySubmitFailureType now with
          | none => acc
          | some db' => db')
    db

/-- `TaskService.create_tasks_batch`: validate all parents up front, then in
one transaction create and enqueue every item with a service-generated
dispatch id (`commit=False`), commit once, and finally run the best-effort
dispatch loop. -/
def createTasksBatch (db : DB) (items : List (BatchItem × String × Bool))
    (now : Int) : DB × Option ServiceError :=
  let parentIds := items.filterMap (fun it => it.1.parentTaskId)
  if ¬ (parentIds.all (fun p => (Repository.getById db p).isSome)) then
    (db, some ServiceError.parentNotFound)
  else
    let staged := items.foldl
      (fun (acc : DB × List (Nat × String × Bool)) it =>
        match it with
        | (item, cid, ok) =>
          let created := Repository.create acc.1 item.name item.prompt item.parentTaskId
          let db2 := (Repository.enqueueExecution created.1 created.2.id cid false).getD created.1
          (db2, acc.2 ++ [(created.2.id, cid, ok)]))
      (db, [])
    (batchDispatchPhase staged.1 staged.2 now, none)

end TaskService

/-- The `error_message` literal stated by the spec for dispatch failures. -/
def specBrokerFailureMessage : String := "Failed to submit to broker"

/-- The `error_type` literal stated by the spec for dispatch failures. -/
def specEnqueueErrorType : String := "EnqueueError"

/-- The attempt numbers recorded for one task, in insertion order. -/
def attemptsOf (db : DB) (tid : Nat) : List Nat :=
  (db.executions.filter (fun e => e.taskId = tid)).map (fun e => e.attemptNumber)

/-- A sequential history of `enqueue_execution` calls against one task, one
call per dispatch id. -/
def enqueueHistory (db : DB) (tid : Nat) (cids : List String) : DB :=
  cids.foldl (fun d c => (Repository.enqueueExecution d tid c false).getD d) db

/-! Concrete states used to instantiate the theorems below. -/

/-- A completed task row. -/
def exTaskCompleted : Task :=
  { id := 1, name := "t1", prompt := "p1", status := TaskStatus.completed,
    startedAt := some 1, completedAt := some 2, output := some "o1",
    errorMessage := none, retryCount := 0, maxRetries := 3, parentTaskId := none }

/-- The finished attempt of the completed task. -/
def exAttemptDone : TaskExecution :=
  { eid := 1, taskId := 1, attemptNumber := 1, status := TaskStatus.completed,
    celeryTaskId := "a1", startedAt := some 1, completedAt := some 2,
    output := some "o1", errorMessage := none, errorType := none,
    workerId := none, modelName := none, promptTokens := none,
    completionTokens := none, totalTokens := none }

/-- A state with one completed (terminal) task and its finished attempt. -/
def exDbTerminal : DB :=
  { tasks := [exTaskCompleted], executions := [exAttemptDone] }

/-- A queued task in its second attempt. -/
def exTaskRetried : Task :=
  { id := 1, name := "t1", prompt := "p1", status := TaskStatus.queued,
    startedAt := none, completedAt := none, output := none,
    errorMessage := none, retryCount := 1, maxRetries := 3, parentTaskId := none }

/-- First (failed) attempt of the retried task. -/
def exAttemptOne : TaskExecution :=
  { eid := 1, taskId := 1, attemptNumber := 1, status := TaskStatus.failed,
    celeryTaskId := "a1", startedAt := some 1, completedAt := some 2,
    output := none, errorMessage := some "boom", errorType := some "Provider",
    workerId := none, modelName := none, promptTokens := none,
    completionTokens := none, totalTokens := none }

/-- Second (queued) attempt of the retried task. -/
def exAttemptTwo : TaskExecution :=
  { eid := 2, taskId := 1, attemptNumber := 2, status := TaskStatus.queued,
    celeryTaskId := "a2", startedAt := none, completedAt := none,
    output := none, errorMessage := none, errorType := none,
    workerId := none, modelName := none, promptTokens := none,
    completionTokens := none, totalTokens := none }

/-- A state where attempt 2 is queued and attempt 1 finished `failed`: the
setting of the stale-dispatch property. -/
def exDbStale : DB :=
  { tasks := [exTaskRetried], executions := [exAttemptOne, exAttemptTwo] }

/-- A failed task eligible for retry. -/
def exTaskFailed : Task :=
  { id := 1, name := "t1", prompt := "p1", status := TaskStatus.failed,
    startedAt := some 1, completedAt := some 2, output := none,
    errorMessage := some "boom", retryCount := 1, maxRetries := 3,
    parentTaskId := none }

/-- A state with one failed task and its failed attempt. -/
def exDbFailed : DB :=
  { tasks := [exTaskFailed], executions := [exAttemptOne] }

/-- A running task. -/
def exTaskRunning : Task :=
  { id := 1, name := "t1", prompt := "p1", status := TaskStatus.running,
    startedAt := some 5, completedAt := none, output := none,
    errorMessage := none, retryCount := 0, maxRetries := 3, parentTaskId := none }

/-- The running attempt of the running task. -/
def exAttemptRunning : TaskExecution :=
  { eid := 1, taskId := 1, attemptNumber := 1, status := TaskStatus.running,
    celeryTaskId := "c1", startedAt := some 5, completedAt := none,
    output := none, errorMessage := none, errorType := none,
    workerId := some "w1", modelName := none, promptTokens := none,
    completionTokens := none, totalTokens := none }

/-- A state with one running task mid-attempt. -/
def exDbRunning : DB :=
  { tasks := [exTaskRunning], executions := [exAttemptRunning] }

/-- A cancelled task whose first attempt had failed and was retried before the
cancellation. -/
def exTaskCancelled : Task :=
  { id := 1, name := "t1", prompt := "p1", status := TaskStatus.cancelled,
    startedAt := none, completedAt := some 9, output := none,
    errorMessage := some "boom", retryCount := 1, maxRetries := 3,
    parentTaskId := none }

/-- Cancelled latest attempt of the cancelled task. -/
def exAttemptCancelled : TaskExecution :=
  { eid := 2, taskId := 1, attemptNumber := 2, status := TaskStatus.cancelled,
    celeryTaskId := "a2", startedAt := none, completedAt := some 9,
    output := none, errorMessage := none, errorType := some "TaskCancelled",
    workerId := none, modelName := none, promptTokens := none,
    completionTokens := none, totalTokens := none }

/-- A state with a cancelled task, a terminal old attempt 1 and a cancelled
latest attempt 2. -/
def exDbCancelled : DB :=
  { tasks := [exTaskCancelled], executions := [exAttemptOne, exAttemptCancelled] }

/-- A pending task with no attempt yet. -/
def exTaskFresh : Task :=
  { id := 1, name := "t1", prompt := "p1", status := TaskStatus.pending,
    startedAt := none, completedAt := none, output := none,
    errorMessage := none, retryCount := 0, maxRetries := 3, parentTaskId := none }

/-- A state with one pending task and an empty execution log. -/
def exDbFresh : DB :=
  { tasks := [exTaskFresh], executions := [] }

/-- Root of a three-task parent chain. -/
def exChainRoot : Task :=
  { id := 1, name := "r", prompt := "p", status := TaskStatus.completed,
    startedAt := none, completedAt := none, output := none,
    errorMessage := none, retryCount := 0, maxRetries := 3, parentTaskId := none }

/-- Middle link of the chain, child of the root. -/
def exChainMid : Task :=
  { id := 2, name := "m", prompt := "p", status := TaskStatus.completed,
    startedAt := none, completedAt := none, output := none,
    errorMessage := none, retryCount := 0, maxRetries := 3, parentTaskId := some 1 }

/-- Leaf of the chain, child of the middle link. -/
def exChainLeaf : Task :=
  { id := 3, name := "l", prompt := "p", status := TaskStatus.completed,
    startedAt := none, completedAt := none, output := none,
    errorMessage := none, retryCount := 0, maxRetries := 3, parentTaskId := some 2 }

/-- A state holding the three-task chain. -/
def exDbChain : DB :=
  { tasks := [exChainRoot, exChainMid, exChainLeaf], executions := [] }

/-! Basic lemmas about the embedded repository primitives. -/

theorem getById_id {db : DB} {tid : Nat} {t : Task}
    (h : Repository.getById db tid = some t) : t.id = tid := by
  have h' := List.find?_some h
  simpa using h'

theorem find?_map_update {l : List Task} {tid : Nat} {t t' : Task}
    (hid : t'.id = t.id)
    (h : l.find? (fun x => x.id = tid) = some t) :
    (l.map (fun x => if x.id = t'.id then t' else x)).find? (fun x => x.id = tid)
      = some t' := by
  induction l with
  | nil => simp at h
  | cons a l ih =>
    simp only [List.map_cons]
    by_cases ha : a.id = tid
    · rw [List.find?_cons_of_pos _ (by simpa using ha)] at h
      have hat : a = t := by simpa using h
      subst hat
      rw [if_pos hid.symm]
      exact List.find?_cons_of_pos _ (by simpa using hid.trans ha)
    · rw [List.find?_cons_of_neg _ (by simpa using ha)] at h
      have hrec := ih h
      by_cases hb : a.id = t'.id
      · rw [if_pos hb]
        rw [List.find?_cons_of_neg _ (by simp; exact fun hx => ha (hb.trans hx))]
        exact hrec
      · rw [if_neg hb]
        rw [List.find?_cons_of_neg _ (by simpa using ha)]
        exact hrec

theorem getById_updateTask {db : DB} {tid : Nat} {t t' : Task}
    (h : Repository.getById db tid = some t) (hid : t'.id = t.id) :
    Repository.getById (Repository.updateTask db t') tid = some t' :=
  find?_map_update hid h

theorem le_foldl_max {α : Type} (f : α → Nat) :
    ∀ (l : List α) (a : Nat), a ≤ l.foldl (fun m x => max m (f x)) a := by
  intro l
  induction l with
  | nil => intro a; simp
  | cons x l ih =>
    intro a
    simp only [List.foldl_cons]
    exact le_trans (Nat.le_max_left a (f x)) (ih (max a (f x)))

theorem mem_le_foldl_max {α : Type} (f : α → Nat) :
    ∀ (l : List α) (a : Nat) (x : α), x ∈ l →
      f x ≤ l.foldl (fun m y => max m (f y)) a := by
  intro l
  induction l with
  | nil => intro a x hx; simp at hx
  | cons y l ih =>
    intro a x hx
    simp only [List.foldl_cons]
    rcases List.mem_cons.mp hx with h | h
    · subst h
      exact le_trans (Nat.le_max_right a (f x)) (le_foldl_max f l _)
    · exact ih _ x h

theorem attempt_lt_next {db : DB} {tid : Nat} {e : TaskExecution}
    (he : e ∈ db.executions) (ht : e.taskId = tid) :
    e.attemptNumber < Repository.nextAttemptNumber db tid := by
  have hmem : e ∈ db.executions.filter (fun x => x.taskId = tid) :=
    List.mem_filter.mpr ⟨he, by simp [ht]⟩
  have hle : e.attemptNumber ≤
      (db.executions.filter (fun e => e.taskId = tid)).foldl
        (fun m e => max m e.attemptNumber) 0 :=
    mem_le_foldl_max (fun x => x.attemptNumber) _ 0 e hmem
  unfold Repository.nextAttemptNumber
  omega

theorem eid_lt_fresh {db : DB} {e : TaskExecution} (he : e ∈ db.executions) :
    e.eid < Repository.freshEid db := by
  have hle : e.eid ≤ db.executions.foldl (fun m e => max m e.eid) 0 :=
    mem_le_foldl_max (fun x => x.eid) _ 0 e he
  unfold Repository.freshEid
  omega

theorem latest_foldl_mem :
    ∀ (l : List TaskExecution) (acc : Option TaskExecution) (e : TaskExecution),
      l.foldl
        (fun best x =>
          match best with
          | none => some x
          | some b => if b.attemptNumber ≤ x.attemptNumber then some x else some b)
        acc = some e →
      e ∈ l ∨ acc = some e := by
  intro l
  induction l with
  | nil =>
    intro acc e h
    right
    simpa using h
  | cons x l ih =>
    intro acc e h
    simp only [List.foldl_cons] at h
    rcases ih _ e h with hm | hacc
    · exact Or.inl (List.mem_cons_of_mem _ hm)
    · cases acc with
      | none =>
        have hx : x = e := by simpa using hacc
        exact Or.inl (hx ▸ List.mem_cons_self x l)
      | some b =>
        by_cases hb : b.attemptNumber ≤ x.attemptNumber
        · simp only [if_pos hb] at hacc
          have hx : x = e := by simpa using hacc
          exact Or.inl (hx ▸ List.mem_cons_self x l)
        · simp only [if_neg hb] at hacc
          exact Or.inr hacc

theorem getLatest_mem {db : DB} {tid : Nat} {e : TaskExecution}
    (h : Repository.getLatestExecutionForTask db tid = some e) :
    e ∈ db.executions ∧ e.taskId = tid := by
  unfold Repository.getLatestExecutionForTask at h
  rcases latest_foldl_mem _ none e h with hm | hacc
  · have hmem := List.mem_filter.mp hm
    exact ⟨hmem.1, by simpa using hmem.2⟩
  · simp at hacc

theorem getLatest_append {db1 db : DB} {tid : Nat} {ex : TaskExecution}
    (hex : db1.executions = db.executions ++ [ex])
    (htid : ex.taskId = tid)
    (hgt : ∀ e ∈ db.executions, e.taskId = tid →
      e.attemptNumber < ex.attemptNumber) :
    Repository.getLatestExecutionForTask db1 tid = some ex := by
  unfold Repository.getLatestExecutionForTask
  rw [hex]
  simp only [List.filter_append, List.foldl_append, List.filter_cons,
    List.filter_nil]
  rw [if_pos (by simpa using htid)]
  simp only [List.foldl_cons, List.foldl_nil]
  cases hacc : (db.executions.filter (fun e => e.taskId = tid)).foldl
      (fun best e =>
        match best with
        | none => some e
        | some b => if b.attemptNumber ≤ e.attemptNumber then some e else some b)
      none with
  | none => rfl
  | some b =>
    rcases latest_foldl_mem _ none b hacc with hm | hcontra
    · have hmem := List.mem_filter.mp hm
      have hlt := hgt b hmem.1 (by simpa using hmem.2)
      simp only [if_pos (Nat.le_of_lt hlt)]
    · simp at hcontra

theorem getExecByCid_mem {db : DB} {cid : String} {e : TaskExecution}
    (h : Repository.getExecutionByCeleryTaskId db cid = some e) :
    e ∈ db.executions ∧ e.celeryTaskId = cid := by
  unfold Repository.getExecutionByCeleryTaskId at h
  have hm := List.mem_of_mem_getLast? h
  have hmem := List.mem_filter.mp hm
  exact ⟨hmem.1, by simpa using hmem.2⟩

theorem getExecByCid_append {db1 db : DB} {cid : String} {ex : TaskExecution}
    (hex : db1.executions = db.executions ++ [ex])
    (hc : ex.celeryTaskId = cid) :
    Repository.getExecutionByCeleryTaskId db1 cid = some ex := by
  unfold Repository.getExecutionByCeleryTaskId
  rw [hex]
  simp only [List.filter_append, List.filter_cons, List.filter_nil]
  rw [if_pos (by simpa using hc)]
  exact List.getLast?_concat _

theorem enqueueExecution_eq {db : DB} {tid : Nat} {cid : String} {inc : Bool}
    {task : Task} (h : Repository.getById db tid = some task) :
    Repository.enqueueExecution db tid cid inc =
      some (Repository.insertExecution
        (Repository.updateTask db { task with
          retryCount := if inc then task.retryCount + 1 else task.retryCount,
          status := TaskStatus.queued, startedAt := none, completedAt := none,
          output := none, errorMessage := none })
        { eid := Repository.freshEid db, taskId := task.id,
          attemptNumber := Repository.nextAttemptNumber db tid,
          status := TaskStatus.queued, celeryTaskId := cid, startedAt := none,
          completedAt := none, output := none, errorMessage := none,
          errorType := none, workerId := none, modelName := none,
          promptTokens := none, completionTokens := none, totalTokens := none }) := by
  simp only [Repository.enqueueExecution, h]
  rfl

theorem markRunning_terminal {db : DB} {tid : Nat} {cid : String}
    {workerId : Option String} {now : Int} {task : Task}
    (h : Repository.getById db tid = some task)
    (hterm : task.status = TaskStatus.completed ∨ task.status = TaskStatus.failed ∨
      task.status = TaskStatus.cancelled) :
    Repository.markRunning db tid cid workerId now = some db := by
  simp only [Repository.markRunning, h]
  rw [if_pos hterm]

theorem markRunning_stale {db : DB} {tid : Nat} {cid : String}
    {workerId : Option String} {now : Int} {task : Task}
    (h : Repository.getById db tid = some task)
    (hterm : ¬ (task.status = TaskStatus.completed ∨ task.status = TaskStatus.failed ∨
      task.status = TaskStatus.cancelled))
    (hstale : Repository.isLatestExecution db tid cid = false) :
    Repository.markRunning db tid cid workerId now = some db := by
  have hid := getById_id h
  simp only [Repository.markRunning, h]
  rw [if_neg hterm, hid, if_pos (by simp [hstale])]

theorem markCompleted_cancelled_eq {db : DB} {tid : Nat} {cid : String}
    {output : String} {mn : Option String} {pt ct tt : Option Int} {now : Int}
    {task : Task}
    (h : Repository.getById db tid = some task)
    (hc : task.status = TaskStatus.cancelled) :
    Repository.markCompleted db tid cid output mn pt ct tt now =
      (match Repository.getExecutionByCeleryTaskId db cid with
       | none => some db
       | some e =>
         some (Repository.updateExecution db { e with status := TaskStatus.cancelled })) := by
  simp only [Repository.markCompleted, h]
  rw [if_pos hc]

theorem markCompleted_terminal {db : DB} {tid : Nat} {cid : String}
    {output : String} {mn : Option String} {pt ct tt : Option Int} {now : Int}
    {task : Task}
    (h : Repository.getById db tid = some task)
    (hnc : task.status ≠ TaskStatus.cancelled)
    (hterm : task.status = TaskStatus.completed ∨ task.status = TaskStatus.failed) :
    Repository.markCompleted db tid cid output mn pt ct tt now = some db := by
  simp only [Repository.markCompleted, h]
  rw [if_neg hnc, if_pos hterm]

theorem markCompleted_stale {db : DB} {tid : Nat} {cid : String}
    {output : String} {mn : Option String} {pt ct tt : Option Int} {now : Int}
    {task : Task}
    (h : Repository.getById db tid = some task)
    (hnc : task.status ≠ TaskStatus.cancelled)
    (hterm : ¬ (task.status = TaskStatus.completed ∨ task.status = TaskStatus.failed))
    (hstale : Repository.isLatestExecution db tid cid = false) :
    Repository.markCompleted db tid cid output mn pt ct tt now = some db := by
  have hid := getById_id h
  simp only [Repository.markCompleted, h]
  rw [if_neg hnc, if_neg hterm, hid, if_pos (by simp [hstale])]

theorem markCompleted_success_eq {db : DB} {tid : Nat} {cid : String}
    {output : String} {mn : Option String} {pt ct tt : Option Int} {now : Int}
    {task : Task}
    (h : Repository.getById db tid = some task)
    (hnc : task.status ≠ TaskStatus.cancelled)
    (hterm : ¬ (task.status = TaskStatus.completed ∨ task.status = TaskStatus.failed))
    (hlatest : Repository.isLatestExecution db tid cid = true) :
    Repository.markCompleted db tid cid output mn pt ct tt now =
      (let db1 := Repository.updateTask db { task with
        status := TaskStatus.completed, output := some output, errorMessage := none,
        completedAt := some (Repository.resolveCompletedAt now task.startedAt) }
       match Repository.getExecutionByCeleryTaskId db cid with
       | none => some db1
       | some e =>
         some (Repository.updateExecution db1 { e with
           status := TaskStatus.completed, output := some output,
           errorMessage := none, errorType := none, modelName := mn,
           promptTokens := pt, completionTokens := ct, totalTokens := tt,
           completedAt := some (Repository.resolveCompletedAt now e.startedAt) })) := by
  have hid := getById_id h
  simp only [Repository.markCompleted, h]
  rw [if_neg hnc, if_neg hterm, hid, if_neg (by simp [hlatest])]
  rfl

theorem markFailed_cancelled_eq {db : DB} {tid : Nat} {cid : String}
    {em et : String} {now : Int} {task : Task}
    (h : Repository.getById db tid = some task)
    (hc : task.status = TaskStatus.cancelled) :
    Repository.markFailed db tid cid em et now =
      (match Repository.getExecutionByCeleryTaskId db cid with
       | none => some db
       | some e =>
         some (Repository.updateExecution db { e with status := TaskStatus.cancelled })) := by
  simp only [Repository.markFailed, h]
  rw [if_pos hc]

theorem markFailed_terminal {db : DB} {tid : Nat} {cid : String}
    {em et : String} {now : Int} {task : Task}
    (h : Repository.getById db tid = some task)
    (hnc : task.status ≠ TaskStatus.cancelled)
    (hterm : task.status = TaskStatus.completed ∨ task.status = TaskStatus.failed) :
    Repository.markFailed db tid cid em et now = some db := by
  simp only [Repository.markFailed, h]
  rw [if_neg hnc, if_pos hterm]

theorem markFailed_stale {db : DB} {tid : Nat} {cid : String}
    {em et : String} {now : Int} {task : Task}
    (h : Repository.getById db tid = some task)
    (hnc : task.status ≠ TaskStatus.cancelled)
    (hterm : ¬ (task.status = TaskStatus.completed ∨ task.status = TaskStatus.failed))
    (hstale : Repository.isLatestExecution db tid cid = false) :
    Repository.markFailed db tid cid em et now = some db := by
  have hid := getById_id h
  simp only [Repository.markFailed, h]
  rw [if_neg hnc, if_neg hterm, hid, if_pos (by simp [hstale])]

theorem markFailed_success_eq {db : DB} {tid : Nat} {cid : String}
    {em et : String} {now : Int} {task : Task}
    (h : Repository.getById db tid = some task)
    (hnc : task.status ≠ TaskStatus.cancelled)
    (hterm : ¬ (task.status = TaskStatus.completed ∨ task.status = TaskStatus.failed))
    (hlatest : Repository.isLatestExecution db tid cid = true) :
    Repository.markFailed db tid cid em et now =
      (let db1 := Repository.updateTask db { task with
        status := TaskStatus.failed, errorMessage := some em,
        completedAt := some (Repository.resolveCompletedAt now task.startedAt) }
       match Repository.getExecutionByCeleryTaskId db cid with
       | none => some db1
       | some e =>
         some (Repository.updateExecution db1 { e with
           status := TaskStatus.failed, errorMessage := some em,
           errorType := some et,
           completedAt := some (Repository.resolveCompletedAt now e.startedAt) })) := by
  have hid := getById_id h
  simp only [Repository.markFailed, h]
  rw [if_neg hnc, if_neg hterm, hid, if_neg (by simp [hlatest])]
  rfl

theorem markCancelled_eq {db : DB} {tid : Nat} {reason : String} {now : Int}
    {task : Task} (h : Repository.getById db tid = some task) :
    Repository.markCancelled db tid reason now =
      (let db1 := Repository.updateTask db { task with
        status := TaskStatus.cancelled, errorMessage := some reason,
        completedAt := some (Repository.resolveCompletedAt now task.startedAt) }
       match Repository.getLatestExecutionForTask db tid with
       | none => some db1
       | some e =>
         if e.status = TaskStatus.pending ∨ e.status = TaskStatus.queued ∨
             e.status = TaskStatus.running then
           some (Repository.updateExecution db1 { e with
             status := TaskStatus.cancelled, errorMessage := some reason,
             errorType := some taskCancelledType,
             completedAt := some (Repository.resolveCompletedAt now e.startedAt) })
         else some db1) := by
  simp only [Repository.markCancelled, h]
  rfl

theorem mem_updateTask_tasks {db : DB} {t' x : Task}
    (hx : x ∈ (Repository.updateTask db t').tasks) :
    x ∈ db.tasks ∨ x = t' := by
  rcases List.mem_map.mp hx with ⟨y, hy, hxy⟩
  by_cases hyy : y.id = t'.id
  · rw [if_pos hyy] at hxy
    exact Or.inr hxy.symm
  · rw [if_neg hyy] at hxy
    exact Or.inl (hxy ▸ hy)

theorem mem_updateExecution_execs {db : DB} {e' x : TaskExecution}
    (hx : x ∈ (Repository.updateExecution db e').executions) :
    x ∈ db.executions ∨ x = e' := by
  rcases List.mem_map.mp hx with ⟨y, hy, hxy⟩
  by_cases hyy : y.eid = e'.eid
  · rw [if_pos hyy] at hxy
    exact Or.inr hxy.symm
  · rw [if_neg hyy] at hxy
    exact Or.inl (hxy ▸ hy)

theorem markFailed_frame {db db' : DB} {tid : Nat} {cid em et : String} {now : Int}
    (h : Repository.markFailed db tid cid em et now = some db') :
    (∀ t' ∈ db'.tasks, t' ∈ db.tasks ∨ t'.id = tid) ∧
    (∀ e' ∈ db'.executions, e' ∈ db.executions ∨ e'.celeryTaskId = cid) := by
  cases hget : Repository.getById db tid with
  | none =>
    unfold Repository.markFailed at h
    rw [hget] at h
    simp at h
  | some task =>
    have hid := getById_id hget
    by_cases hc : task.status = TaskStatus.cancelled
    · rw [markFailed_cancelled_eq hget hc] at h
      cases hexec : Repository.getExecutionByCeleryTaskId db cid with
      | none =>
        rw [hexec] at h
        injection h with h
        subst h
        exact ⟨fun t ht => Or.inl ht, fun e he => Or.inl he⟩
      | some e =>
        rw [hexec] at h
        injection h with h
        subst h
        refine ⟨fun t ht => Or.inl ht, fun x hx => ?_⟩
        rcases mem_updateExecution_execs hx with hm | hm
        · exact Or.inl hm
        · subst hm
          exact Or.inr (getExecByCid_mem hexec).2
    · by_cases hterm : task.status = TaskStatus.completed ∨ task.status = TaskStatus.failed
      · rw [markFailed_terminal hget hc hterm] at h
        have hdb : db = db' := by simpa using h
        subst hdb
        exact ⟨fun t ht => Or.inl ht, fun e he => Or.inl he⟩
      · cases hl : Repository.isLatestExecution db tid cid with
        | false =>
          rw [markFailed_stale hget hc hterm hl] at h
          injection h with h
          subst h
          exact ⟨fun t ht => Or.inl ht, fun e he => Or.inl he⟩
        | true =>
          rw [markFailed_success_eq hget hc hterm hl] at h
          simp only [] at h
          cases hexec : Repository.getExecutionByCeleryTaskId db cid with
          | none =>
            rw [hexec] at h
            injection h with h
            subst h
            refine ⟨fun t ht => ?_, fun e he => Or.inl he⟩
            rcases mem_updateTask_tasks ht with hm | hm
            · exact Or.inl hm
            · subst hm
              exact Or.inr hid
          | some e =>
            rw [hexec] at h
            injection h with h
            subst h
            constructor
            · intro t ht
              rcases mem_updateTask_tasks ht with hm | hm
              · exact Or.inl hm
              · subst hm
                exact Or.inr hid
            · intro x hx
              rcases mem_updateExecution_execs hx with hm | hm
              · exact Or.inl hm
              · subst hm
                exact Or.inr (getExecByCid_mem hexec).2

theorem batchDispatchPhase_frame {now : Int} :
    ∀ (staged : List (Nat × String × Bool)) (db : DB),
      (∀ t' ∈ (TaskService.batchDispatchPhase db staged now).tasks,
        t' ∈ db.tasks ∨ ∃ s ∈ staged, s.2.2 = false ∧ t'.id = s.1) ∧
      (∀ e' ∈ (TaskService.batchDispatchPhase db staged now).executions,
        e' ∈ db.executions ∨ ∃ s ∈ staged, s.2.2 = false ∧ e'.celeryTaskId = s.2.1) := by
  intro staged
  induction staged with
  | nil =>
    intro db
    exact ⟨fun t ht => Or.inl ht, fun e he => Or.inl he⟩
  | cons s rest ih =>
    intro db
    obtain ⟨tid, cid, ok⟩ := s
    cases ok with
    | true =>
      have hstep : TaskService.batchDispatchPhase db ((tid, cid, true) :: rest) now =
          TaskService.batchDispatchPhase db rest now := by
        unfold TaskService.batchDispatchPhase
        simp
      rw [hstep]
      refine ⟨fun t ht => ?_, fun e he => ?_⟩
      · rcases (ih db).1 t ht with hm | ⟨s', hs', hrest⟩
        · exact Or.inl hm
        · exact Or.inr ⟨s', List.mem_cons_of_mem _ hs', hrest⟩
      · rcases (ih db).2 e he with hm | ⟨s', hs', hrest⟩
        · exact Or.inl hm
        · exact Or.inr ⟨s', List.mem_cons_of_mem _ hs', hrest⟩
    | false =>
      cases hmf : Repository.markFailed db tid cid celerySubmitFailureMessage
          celerySubmitFailureType now with
      | none =>
        have hstep : TaskService.batchDispatchPhase db ((tid, cid, false) :: rest) now =
            TaskService.batchDispatchPhase db rest now := by
          unfold TaskService.batchDispatchPhase
          simp only [List.foldl_cons]
          rw [hmf]
          rfl
        rw [hstep]
        refine ⟨fun t ht => ?_, fun e he => ?_⟩
        · rcases (ih db).1 t ht with hm | ⟨s', hs', hrest⟩
          · exact Or.inl hm
          · exact Or.inr ⟨s', List.mem_cons_of_mem _ hs', hrest⟩
        · rcases (ih db).2 e he with hm | ⟨s', hs', hrest⟩
          · exact Or.inl hm
          · exact Or.inr ⟨s', List.mem_cons_of_mem _ hs', hrest⟩
      | some db1 =>
        have hstep : TaskService.batchDispatchPhase db ((tid, cid, false) :: rest) now =
            TaskService.batchDispatchPhase db1 rest now := by
          unfold TaskService.batchDispatchPhase
          simp only [List.foldl_cons]
          rw [hmf]
          rfl
        rw [hstep]
        have hframe := markFailed_frame hmf
        refine ⟨fun t ht => ?_, fun e he => ?_⟩
        · rcases (ih db1).1 t ht with hm | ⟨s', hs', hrest⟩
          · rcases hframe.1 t hm with hm' | hm'
            · exact Or.inl hm'
            · exact Or.inr ⟨(tid, cid, false), List.mem_cons_self _ _, rfl, hm'⟩
          · exact Or.inr ⟨s', List.mem_cons_of_mem _ hs', hrest⟩
        · rcases (ih db1).2 e he with hm | ⟨s', hs', hrest⟩
          · rcases hframe.2 e hm with hm' | hm'
            · exact Or.inl hm'
            · exact Or.inr ⟨(tid, cid, false), List.mem_cons_self _ _, rfl, hm'⟩
          · exact Or.inr ⟨s', List.mem_cons_of_mem _ hs', hrest⟩

theorem range'_one_concat (s n : Nat) :
    List.range' s (n + 1) = List.range' s n ++ [s + n] := by
  have h : List.range' s (n + 1) = List.range' s n ++ [s + 1 * n] :=
    List.range'_concat s n
  simpa using h

theorem foldl_max_range' :
    ∀ (n a : Nat), (List.range' 1 n).foldl (fun m x => max m x) a = max a n := by
  intro n
  induction n with
  | zero => intro a; simp
  | succ k ih =>
    intro a
    rw [range'_one_concat, List.foldl_append, ih]
    simp only [List.foldl_cons, List.foldl_nil]
    rw [max_assoc]
    rw [max_eq_right (by omega : k ≤ 1 + k)]
    rw [Nat.add_comm 1 k]

theorem nextAttemptNumber_of_attempts {db : DB} {tid : Nat} {n : Nat}
    (hatt : attemptsOf db tid = List.range' 1 n) :
    Repository.nextAttemptNumber db tid = n + 1 := by
  have hfold : Repository.nextAttemptNumber db tid =
      (attemptsOf db tid).foldl (fun m x => max m x) 0 + 1 := by
    unfold Repository.nextAttemptNumber attemptsOf
    rw [List.foldl_map]
  rw [hfold, hatt, foldl_max_range']
  simp

theorem attemptsOf_insert (db : DB) (tid : Nat) (ex : TaskExecution)
    (hex : ex.taskId = tid) :
    attemptsOf (Repository.insertExecution db ex) tid =
      attemptsOf db tid ++ [ex.attemptNumber] := by
  unfold attemptsOf Repository.insertExecution
  simp only [List.filter_append, List.map_append, List.filter_cons, List.filter_nil]
  rw [if_pos (by simpa using hex)]
  simp

theorem attemptsOf_updateTask (db : DB) (tid : Nat) (t' : Task) :
    attemptsOf (Repository.updateTask db t') tid = attemptsOf db tid := rfl

theorem enqueueExecution_history_step {db : DB} {tid : Nat} {cid : String}
    {inc : Bool} {task : Task}
    (h : Repository.getById db tid = some task) :
    ∃ db' task', Repository.enqueueExecution db tid cid inc = some db' ∧
      Repository.getById db' tid = some task' ∧
      attemptsOf db' tid = attemptsOf db tid ++ [Repository.nextAttemptNumber db tid] := by
  have hid := getById_id h
  refine ⟨_, _, enqueueExecution_eq h, getById_updateTask h rfl, ?_⟩
  rw [attemptsOf_insert _ _ _ (by simpa using hid)]
  rfl

theorem enqueueHistory_attempts :
    ∀ (cids : List String) (db : DB) (tid : Nat) (task : Task) (n : Nat),
      Repository.getById db tid = some task →
      attemptsOf db tid = List.range' 1 n →
      attemptsOf (enqueueHistory db tid cids) tid =
        List.range' 1 (n + cids.length) := by
  intro cids
  induction cids with
  | nil =>
    intro db tid task n h hatt
    simpa [enqueueHistory] using hatt
  | cons c rest ih =>
    intro db tid task n h hatt
    obtain ⟨db', task', heq, hget', hatt'⟩ :=
      @enqueueExecution_history_step db tid c false task h
    have hstep : enqueueHistory db tid (c :: rest) = enqueueHistory db' tid rest := by
      unfold enqueueHistory
      simp only [List.foldl_cons]
      rw [heq]
      rfl
    rw [hstep]
    have hadd : 1 + n = n + 1 := by omega
    have hatt1 : attemptsOf db' tid = List.range' 1 (n + 1) := by
      rw [hatt', hatt, nextAttemptNumber_of_attempts hatt, range'_one_concat, hadd]
    have hres := ih db' tid task' (n + 1) hget' hatt1
    rw [hres]
    congr 1
    simp only [List.length_cons]
    omega

theorem listAncestorsAux_depths (db : DB) :
    ∀ (fuel : Nat) (pid : Option Nat) (d : Nat),
      (Repository.listAncestorsAux db fuel pid d).map (fun p => p.2) =
        List.range' d (Repository.listAncestorsAux db fuel pid d).length := by
  intro fuel
  induction fuel with
  | zero => intro pid d; simp [Repository.listAncestorsAux]
  | succ k ih =>
    intro pid d
    cases pid with
    | none => simp [Repository.listAncestorsAux]
    | some p =>
      cases hg : Repository.getById db p with
      | none => simp [Repository.listAncestorsAux, hg]
      | some parent =>
        have hstep : Repository.listAncestorsAux db (k + 1) (some p) d =
            (parent, d) :: Repository.listAncestorsAux db k parent.parentTaskId (d + 1) := by
          simp [Repository.listAncestorsAux, hg]
        rw [hstep]
        simp only [List.map_cons, List.length_cons]
        rw [ih]
        exact (List.range'_succ d _ 1).symm

theorem listAncestorsAux_bounds (db : DB) :
    ∀ (fuel : Nat) (pid : Option Nat) (d : Nat),
      ∀ p ∈ Repository.listAncestorsAux db fuel pid d,
        d ≤ p.2 ∧ p.2 < d + fuel ∧ p.1 ∈ db.tasks := by
  intro fuel
  induction fuel with
  | zero => intro pid d p hp; simp [Repository.listAncestorsAux] at hp
  | succ k ih =>
    intro pid d p hp
    cases pid with
    | none => simp [Repository.listAncestorsAux] at hp
    | some q =>
      cases hg : Repository.getById db q with
      | none => simp [Repository.listAncestorsAux, hg] at hp
      | some parent =>
        have hstep : Repository.listAncestorsAux db (k + 1) (some q) d =
            (parent, d) :: Repository.listAncestorsAux db k parent.parentTaskId (d + 1) := by
          simp [Repository.listAncestorsAux, hg]
        rw [hstep] at hp
        rcases List.mem_cons.mp hp with hph | hpt
        · subst hph
          exact ⟨Nat.le_refl d, by omega, List.mem_of_find?_eq_some hg⟩
        · have hrec := ih parent.parentTaskId (d + 1) p hpt
          exact ⟨by omega, by omega, hrec.2.2⟩

theorem listAncestorsAux_len (db : DB) :
    ∀ (fuel : Nat) (pid : Option Nat) (d : Nat),
      (Repository.listAncestorsAux db fuel pid d).length ≤ fuel := by
  intro fuel
  induction fuel with
  | zero => intro pid d; simp [Repository.listAncestorsAux]
  | succ k ih =>
    intro pid d
    cases pid with
    | none => simp [Repository.listAncestorsAux]
    | some p =>
      cases hg : Repository.getById db p with
      | none => simp [Repository.listAncestorsAux, hg]
      | some parent =>
        have hstep : Repository.listAncestorsAux db (k + 1) (some p) d =
            (parent, d) :: Repository.listAncestorsAux db k parent.parentTaskId (d + 1) := by
          simp [Repository.listAncestorsAux, hg]
        rw [hstep]
        simp only [List.length_cons]
        have := ih parent.parentTaskId (d + 1)
        omega

theorem listDescendantsAux_bounds (db : DB) :
    ∀ (fuel : Nat) (frontier : List Nat) (d : Nat),
      ∀ p ∈ Repository.listDescendantsAux db fuel frontier d,
        d ≤ p.2 ∧ p.2 < d + fuel ∧ p.1 ∈ db.tasks := by
  intro fuel
  induction fuel with
  | zero => intro fr d p hp; simp [Repository.listDescendantsAux] at hp
  | succ k ih =>
    intro fr d p hp
    unfold Repository.listDescendantsAux at hp
    by_cases hfr : fr.isEmpty
    · rw [if_pos hfr] at hp; simp at hp
    · rw [if_neg hfr] at hp
      by_cases hch : (Repository.childrenOf db fr).isEmpty
      · rw [if_pos hch] at hp; simp at hp
      · rw [if_neg hch] at hp
        rcases List.mem_append.mp hp with hmap | hrec
        · rcases List.mem_map.mp hmap with ⟨c, hc, hcp⟩
          subst hcp
          have hcm : c ∈ db.tasks := List.mem_of_mem_filter hc
          exact ⟨Nat.le_refl d, by omega, hcm⟩
        · have := ih ((Repository.childrenOf db fr).map (fun c => c.id)) (d + 1) p hrec
          exact ⟨by omega, by omega, this.2.2⟩

theorem resolve_eq_max (now s : Int) :
    Repository.resolveCompletedAt now (some s) = max now s := by
  show (if s ≤ now then now else s) = max now s
  rcases le_or_lt s now with h | h
  · rw [if_pos h, max_eq_left h]
  · rw [if_neg (not_le.mpr h), max_eq_right (le_of_lt h)]

/-! The claims. -/

/-- C1: Terminal absorption — on a task whose status is terminal (completed,
failed or cancelled), `mark_running`, `mark_completed` and `mark_failed`
leave the task's status, indeed every task row, unchanged; except that for a
cancelled task `mark_completed` / `mark_failed` may set the attempt row
matching the dispatch id to `cancelled` (only its status field), never the
task. -/
theorem C1_terminal_absorption (db : DB) (tid : Nat) (task : Task)
    (cid : String) (workerId : Option String) (output : String)
    (mn : Option String) (pt ct tt : Option Int) (em et : String) (now : Int)
    (hget : Repository.getById db tid = some task)
    (hterm : task.status = TaskStatus.completed ∨ task.status = TaskStatus.failed ∨
      task.status = TaskStatus.cancelled) :
    Repository.markRunning db tid cid workerId now = some db ∧
    (∃ db2, Repository.markCompleted db tid cid output mn pt ct tt now = some db2 ∧
      db2.tasks = db.tasks ∧
      (task.status ≠ TaskStatus.cancelled → db2 = db) ∧
      ∀ x ∈ db2.executions, x ∈ db.executions ∨
        ∃ e ∈ db.executions, e.celeryTaskId = cid ∧
          x = { e with status := TaskStatus.cancelled }) ∧
    (∃ db3, Repository.markFailed db tid cid em et now = some db3 ∧
      db3.tasks = db.tasks ∧
      (task.status ≠ TaskStatus.cancelled → db3 = db) ∧
      ∀ x ∈ db3.executions, x ∈ db.executions ∨
        ∃ e ∈ db.executions, e.celeryTaskId = cid ∧
          x = { e with status := TaskStatus.cancelled }) := by
  refine ⟨markRunning_terminal hget hterm, ?_, ?_⟩
  · by_cases hc : task.status = TaskStatus.cancelled
    · rw [markCompleted_cancelled_eq hget hc]
      cases hexec : Repository.getExecutionByCeleryTaskId db cid with
      | none =>
        exact ⟨db, rfl, rfl, fun hnc => absurd hc hnc, fun x hx => Or.inl hx⟩
      | some e =>
        refine ⟨_, rfl, rfl, fun hnc => absurd hc hnc, ?_⟩
        intro x hx
        rcases mem_updateExecution_execs hx with hm | hm
        · exact Or.inl hm
        · exact Or.inr ⟨e, (getExecByCid_mem hexec).1, (getExecByCid_mem hexec).2, hm⟩
    · have hterm2 : task.status = TaskStatus.completed ∨ task.status = TaskStatus.failed := by
        rcases hterm with h | h | h
        · exact Or.inl h
        · exact Or.inr h
        · exact absurd h hc
      rw [markCompleted_terminal hget hc hterm2]
      exact ⟨db, rfl, rfl, fun _ => rfl, fun x hx => Or.inl hx⟩
  · by_cases hc : task.status = TaskStatus.cancelled
    · rw [markFailed_cancelled_eq hget hc]
      cases hexec : Repository.getExecutionByCeleryTaskId db cid with
      | none =>
        exact ⟨db, rfl, rfl, fun hnc => absurd hc hnc, fun x hx => Or.inl hx⟩
      | some e =>
        refine ⟨_, rfl, rfl, fun hnc => absurd hc hnc, ?_⟩
        intro x hx
        rcases mem_updateExecution_execs hx with hm | hm
        · exact Or.inl hm
        · exact Or.inr ⟨e, (getExecByCid_mem hexec).1, (getExecByCid_mem hexec).2, hm⟩
    · have hterm2 : task.status = TaskStatus.completed ∨ task.status = TaskStatus.failed := by
        rcases hterm with h | h | h
        · exact Or.inl h
        · exact Or.inr h
        · exact absurd h hc
      rw [markFailed_terminal hget hc hterm2]
      exact ⟨db, rfl, rfl, fun _ => rfl, fun x hx => Or.inl hx⟩

/-- C1 witness: on the concrete completed task, `mark_running` changes
nothing. -/
theorem C1_terminal_absorption_witness :
    Repository.markRunning exDbTerminal 1 "a1" none 5 = some exDbTerminal :=
  (C1_terminal_absorption exDbTerminal 1 exTaskCompleted "a1" none ("o2") none
    none none none ("err") ("ErrType") 5 rfl (Or.inl rfl)).1

/-- C2: Stale-dispatch no-op — on a non-terminal task whose latest attempt
carries a different dispatch id, `mark_running`, `mark_completed` and
`mark_failed` called with an earlier attempt's dispatch id return with the
state (task row and every attempt row, in particular attempt N) completely
unchanged. -/
theorem C2_stale_dispatch_noop (db : DB) (tid : Nat) (task : Task)
    (latest eN : TaskExecution) (workerId : Option String) (output : String)
    (mn : Option String) (pt ct tt : Option Int) (em et : String) (now : Int)
    (hget : Repository.getById db tid = some task)
    (hnt : ¬ (task.status = TaskStatus.completed ∨ task.status = TaskStatus.failed ∨
      task.status = TaskStatus.cancelled))
    (hlatest : Repository.getLatestExecutionForTask db tid = some latest)
    (heN : eN ∈ db.executions) (heNtask : eN.taskId = tid)
    (heNnum : eN.attemptNumber < latest.attemptNumber)
    (hcid : eN.celeryTaskId ≠ latest.celeryTaskId) :
    Repository.markRunning db tid eN.celeryTaskId workerId now = some db ∧
    Repository.markCompleted db tid eN.celeryTaskId output mn pt ct tt now = some db ∧
    Repository.markFailed db tid eN.celeryTaskId em et now = some db := by
  have hnc : task.status ≠ TaskStatus.cancelled := fun h => hnt (Or.inr (Or.inr h))
  have hterm2 : ¬ (task.status = TaskStatus.completed ∨ task.status = TaskStatus.failed) := by
    intro h
    rcases h with h | h
    · exact hnt (Or.inl h)
    · exact hnt (Or.inr (Or.inl h))
  have hstale : Repository.isLatestExecution db tid eN.celeryTaskId = false := by
    unfold Repository.isLatestExecution
    rw [hlatest]
    simp
    exact fun h => hcid h.symm
  exact ⟨markRunning_stale hget hnt hstale,
    markCompleted_stale hget hnc hterm2 hstale,
    markFailed_stale hget hnc hterm2 hstale⟩

/-- C2 witness: in the concrete retried state, a `mark_completed` callback
with attempt 1's dispatch id is a no-op. -/
theorem C2_stale_dispatch_noop_witness :
    Repository.markCompleted exDbStale 1 exAttemptOne.celeryTaskId "late" none
      none none none 7 = some exDbStale :=
  (C2_stale_dispatch_noop exDbStale 1 exTaskRetried exAttemptTwo exAttemptOne
    none ("late") none none none none ("err") ("ErrType") 7 rfl (by decide)
    (by decide) (by decide) (by decide) (by decide) (by decide)).2.1

theorem enqueueExecution_full {db : DB} {tid : Nat} {cid : String} {inc : Bool}
    {task : Task} (h : Repository.getById db tid = some task) :
    ∃ db' ex, Repository.enqueueExecution db tid cid inc = some db' ∧
      db'.executions = db.executions ++ [ex] ∧
      ex.taskId = tid ∧ ex.celeryTaskId = cid ∧ ex.status = TaskStatus.queued ∧
      ex.attemptNumber = Repository.nextAttemptNumber db tid ∧ ex.startedAt = none ∧
      Repository.getById db' tid = some { task with
        retryCount := if inc then task.retryCount + 1 else task.retryCount,
        status := TaskStatus.queued, startedAt := none, completedAt := none,
        output := none, errorMessage := none } := by
  have hid := getById_id h
  exact ⟨_, _, enqueueExecution_eq h, rfl, hid, rfl, rfl, rfl, rfl,
    getById_updateTask h rfl⟩

/-- C3: `retry_task` preconditions — NotFound when the task is absent,
RetryNotAllowed when its status is not failed, RetryLimit when
`retry_count ≥ max_retries`; otherwise (with the dispatch succeeding) a new
queued attempt is appended and `retry_count` grows by exactly one, staying
within `max_retries` (and, being a natural number, never below zero). -/
theorem C3_retry_task_spec (db : DB) (tid : Nat) (cid : String)
    (dispatchOk : Bool) (now : Int) :
    (Repository.getById db tid = none →
      TaskService.retryTask db tid cid dispatchOk now =
        (db, some TaskService.ServiceError.notFound)) ∧
    (∀ task, Repository.getById db tid = some task →
      task.status ≠ TaskStatus.failed →
      TaskService.retryTask db tid cid dispatchOk now =
        (db, some TaskService.ServiceError.retryNotAllowed)) ∧
    (∀ task, Repository.getById db tid = some task →
      task.status = TaskStatus.failed → task.maxRetries ≤ task.retryCount →
      TaskService.retryTask db tid cid dispatchOk now =
        (db, some TaskService.ServiceError.retryLimit)) ∧
    (∀ task, Repository.getById db tid = some task →
      task.status = TaskStatus.failed → task.retryCount < task.maxRetries →
      ∃ db' ex, TaskService.retryTask db tid cid true now = (db', none) ∧
        Repository.getById db' tid = some { task with
          retryCount := task.retryCount + 1, status := TaskStatus.queued,
          startedAt := none, completedAt := none, output := none,
          errorMessage := none } ∧
        db'.executions = db.executions ++ [ex] ∧
        ex.taskId = tid ∧ ex.celeryTaskId = cid ∧
        ex.status = TaskStatus.queued ∧
        ex.attemptNumber = Repository.nextAttemptNumber db tid ∧
        task.retryCount + 1 ≤ task.maxRetries) := by
  refine ⟨?_, ?_, ?_, ?_⟩
  · intro hnone
    simp [TaskService.retryTask, hnone]
  · intro task hget hnf
    simp only [TaskService.retryTask, hget]
    rw [if_pos hnf]
  · intro task hget hf hge
    simp only [TaskService.retryTask, hget]
    rw [if_neg (fun hne => hne hf), if_pos hge]
  · intro task hget hf hlt
    have hid := getById_id hget
    obtain ⟨db', ex, henq, hexecs, htid2, hcid2, hst2, hatt2, hstart2, hget2⟩ :=
      @enqueueExecution_full db tid cid true task hget
    refine ⟨db', ex, ?_, ?_, hexecs, htid2, hcid2, hst2, hatt2, by omega⟩
    · simp only [TaskService.retryTask, hget]
      rw [if_neg (fun hne => hne hf), if_neg (not_le.mpr hlt)]
      simp [TaskService.enqueueLlmTask, hid, hget, henq]
    · exact hget2

/-- C3 witness: retrying the concrete failed task appends attempt 2 and bumps
`retry_count` from 1 to 2 (within `max_retries = 3`). -/
theorem C3_retry_task_spec_witness :
    ∃ db' ex, TaskService.retryTask exDbFailed 1 "r2" true 10 = (db', none) ∧
      Repository.getById db' 1 = some { exTaskFailed with
        retryCount := exTaskFailed.retryCount + 1, status := TaskStatus.queued,
        startedAt := none, completedAt := none, output := none,
        errorMessage := none } ∧
      db'.executions = exDbFailed.executions ++ [ex] ∧
      ex.taskId = 1 ∧ ex.celeryTaskId = "r2" ∧
      ex.status = TaskStatus.queued ∧
      ex.attemptNumber = Repository.nextAttemptNumber exDbFailed 1 ∧
      exTaskFailed.retryCount + 1 ≤ exTaskFailed.maxRetries :=
  (C3_retry_task_spec exDbFailed 1 "r2" true 10).2.2.2 exTaskFailed rfl rfl
    (by decide)

/-- C4: Cancellation force — on an absent task `cancel_task` raises NotFound;
on a terminal task it raises CancelNotAllowed and changes nothing; on a
non-terminal task it succeeds independently of whether the broker revoke
raises (the failure is swallowed), setting the task to `cancelled` with the
literal reason, and mirroring a non-terminal latest attempt to `cancelled`
with `error_type = "TaskCancelled"`. -/
theorem C4_cancel_task_spec (db : DB) (tid : Nat) (now : Int) :
    (Repository.getById db tid = none → ∀ r : Bool,
      TaskService.cancelTask db tid r now =
        (db, some TaskService.ServiceError.notFound)) ∧
    (∀ task, Repository.getById db tid = some task →
      (task.status = TaskStatus.completed ∨ task.status = TaskStatus.failed ∨
        task.status = TaskStatus.cancelled) →
      ∀ r : Bool, TaskService.cancelTask db tid r now =
        (db, some TaskService.ServiceError.cancelNotAllowed)) ∧
    (∀ task, Repository.getById db tid = some task →
      ¬ (task.status = TaskStatus.completed ∨ task.status = TaskStatus.failed ∨
        task.status = TaskStatus.cancelled) →
      TaskService.cancelTask db tid true now = TaskService.cancelTask db tid false now ∧
      ∀ r : Bool, ∃ db1, TaskService.cancelTask db tid r now = (db1, none) ∧
        Repository.getById db1 tid = some { task with
          status := TaskStatus.cancelled, errorMessage := some cancelReason,
          completedAt := some (Repository.resolveCompletedAt now task.startedAt) } ∧
        (Repository.getLatestExecutionForTask db tid = none →
          db1.executions = db.executions) ∧
        (∀ le, Repository.getLatestExecutionForTask db tid = some le →
          (le.status = TaskStatus.pending ∨ le.status = TaskStatus.queued ∨
            le.status = TaskStatus.running) →
          db1.executions = db.executions.map (fun x =>
            if x.eid = le.eid then { le with status := TaskStatus.cancelled, errorMessage := some cancelReason, errorType := some taskCancelledType, completedAt := some (Repository.resolveCompletedAt now le.startedAt) }
            else x))) := by
  refine ⟨?_, ?_, ?_⟩
  · intro hnone r
    simp [TaskService.cancelTask, hnone]
  · intro task hget hterm r
    simp only [TaskService.cancelTask, hget]
    rw [if_pos hterm]
  · intro task hget hnterm
    have hid := getById_id hget
    have hmc := @markCancelled_eq db tid cancelReason now task hget
    refine ⟨rfl, ?_⟩
    intro r
    cases hlatest : Repository.getLatestExecutionForTask db tid with
    | none =>
      have heqn : TaskService.cancelTask db tid r now =
          (Repository.updateTask db { task with status := TaskStatus.cancelled, errorMessage := some cancelReason, completedAt := some (Repository.resolveCompletedAt now task.startedAt) }, none) := by
        simp only [TaskService.cancelTask, hget]
        rw [if_neg hnterm]
        simp only [hid, hmc, hlatest]
      refine ⟨_, heqn, getById_updateTask hget rfl, fun _ => rfl, ?_⟩
      intro le hle hles
      cases hle
    | some le =>
      by_cases hles : le.status = TaskStatus.pending ∨ le.status = TaskStatus.queued ∨
          le.status = TaskStatus.running
      · have heqn : TaskService.cancelTask db tid r now =
            (Repository.updateExecution (Repository.updateTask db { task with status := TaskStatus.cancelled, errorMessage := some cancelReason, completedAt := some (Repository.resolveCompletedAt now task.startedAt) }) { le with status := TaskStatus.cancelled, errorMessage := some cancelReason, errorType := some taskCancelledType, completedAt := some (Repository.resolveCompletedAt now le.startedAt) }, none) := by
          simp only [TaskService.cancelTask, hget]
          rw [if_neg hnterm]
          simp only [hid, hmc, hlatest]
          rw [if_pos hles]
        refine ⟨_, heqn, getById_updateTask hget rfl, ?_, ?_⟩
        · intro hcontra
          cases hcontra
        · intro le' hle' hles'
          injection hle' with hle'
          subst hle'
          rfl
      · have heqn : TaskService.cancelTask db tid r now =
            (Repository.updateTask db { task with status := TaskStatus.cancelled, errorMessage := some cancelReason, completedAt := some (Repository.resolveCompletedAt now task.startedAt) }, none) := by
          simp only [TaskService.cancelTask, hget]
          rw [if_neg hnterm]
          simp only [hid, hmc, hlatest]
          rw [if_neg hles]
        refine ⟨_, heqn, getById_updateTask hget rfl, ?_, ?_⟩
        · intro hcontra
          cases hcontra
        · intro le' hle' hles'
          injection hle' with hle'
          subst hle'
          exact absurd hles' hles

/-- C4 witness: cancelling the concrete running task succeeds with the revoke
call raising, cancelling the task row and mirroring the running attempt. -/
theorem C4_cancel_task_spec_witness :
    ∃ db1, TaskService.cancelTask exDbRunning 1 true 9 = (db1, none) ∧
      Repository.getById db1 1 = some { exTaskRunning with
        status := TaskStatus.cancelled, errorMessage := some cancelReason,
        completedAt := some (Repository.resolveCompletedAt 9 exTaskRunning.startedAt) } ∧
      (Repository.getLatestExecutionForTask exDbRunning 1 = none →
        db1.executions = exDbRunning.executions) ∧
      (∀ le, Repository.getLatestExecutionForTask exDbRunning 1 = some le →
        (le.status = TaskStatus.pending ∨ le.status = TaskStatus.queued ∨
          le.status = TaskStatus.running) →
        db1.executions = exDbRunning.executions.map (fun x =>
          if x.eid = le.eid then { le with status := TaskStatus.cancelled, errorMessage := some cancelReason, errorType := some taskCancelledType, completedAt := some (Repository.resolveCompletedAt 9 le.startedAt) }
          else x)) :=
  (((C4_cancel_task_spec exDbRunning 1 9).2.2 exTaskRunning rfl (by decide)).2) true

/-- C5 (amended): Dispatch-failure marking — when broker submission fails
after the queued attempt was persisted, the single create/retry path marks
the task and its fresh attempt `failed` with the literal
`error_message = "Failed to submit task to Celery"` and
`error_type = "TaskEnqueueError"` and raises the enqueue error to the caller;
on the batch path only items whose dispatch failed can be touched by the
post-commit loop, so every other task and attempt row of the committed batch
is left unchanged (and in particular stays queued). -/
theorem C5_dispatch_failure_marking (db : DB) (tid : Nat) (cid : String)
    (inc : Bool) (now : Int) (task : Task)
    (hget : Repository.getById db tid = some task) :
    (∃ db' ex, TaskService.enqueueLlmTask db tid cid inc false now =
        (db', some TaskService.ServiceError.enqueueError) ∧
      Repository.getById db' tid = some { task with retryCount := if inc then task.retryCount + 1 else task.retryCount, status := TaskStatus.failed, startedAt := none, completedAt := some now, output := none, errorMessage := some celerySubmitFailureMessage } ∧
      ex ∈ db'.executions ∧ ex.celeryTaskId = cid ∧
      ex.status = TaskStatus.failed ∧
      ex.errorMessage = some celerySubmitFailureMessage ∧
      ex.errorType = some celerySubmitFailureType) ∧
    (∀ (staged : List (Nat × String × Bool)) (db0 : DB) (now' : Int),
      (∀ x ∈ (TaskService.batchDispatchPhase db0 staged now').tasks,
        x ∈ db0.tasks ∨ ∃ s ∈ staged, s.2.2 = false ∧ x.id = s.1) ∧
      (∀ x ∈ (TaskService.batchDispatchPhase db0 staged now').executions,
        x ∈ db0.executions ∨ ∃ s ∈ staged, s.2.2 = false ∧ x.celeryTaskId = s.2.1)) := by
  constructor
  · have hid := getById_id hget
    obtain ⟨db1, exN, henq, hexecs, htid2, hcid2, hst2, hatt2, hstart2, hget1⟩ :=
      @enqueueExecution_full db tid cid inc task hget
    have hlat : Repository.getLatestExecutionForTask db1 tid = some exN :=
      getLatest_append hexecs htid2
        (fun e he ht => by rw [hatt2]; exact attempt_lt_next he ht)
    have hisl : Repository.isLatestExecution db1 tid cid = true := by
      unfold Repository.isLatestExecution
      rw [hlat]
      simp [hcid2]
    have hgetexec : Repository.getExecutionByCeleryTaskId db1 cid = some exN :=
      getExecByCid_append hexecs hcid2
    have hmf2 : Repository.markFailed db1 tid cid celerySubmitFailureMessage
        celerySubmitFailureType now =
        some (Repository.updateExecution (Repository.updateTask db1 { task with retryCount := if inc then task.retryCount + 1 else task.retryCount, status := TaskStatus.failed, startedAt := none, completedAt := some now, output := none, errorMessage := some celerySubmitFailureMessage }) { exN with status := TaskStatus.failed, errorMessage := some celerySubmitFailureMessage, errorType := some celerySubmitFailureType, completedAt := some (Repository.resolveCompletedAt now exN.startedAt) }) := by
      rw [markFailed_success_eq hget1 (by simp) (by simp) hisl]
      simp only [hgetexec]
      rfl
    have hservice : TaskService.enqueueLlmTask db tid cid inc false now =
        (Repository.updateExecution (Repository.updateTask db1 { task with retryCount := if inc then task.retryCount + 1 else task.retryCount, status := TaskStatus.failed, startedAt := none, completedAt := some now, output := none, errorMessage := some celerySubmitFailureMessage }) { exN with status := TaskStatus.failed, errorMessage := some celerySubmitFailureMessage, errorType := some celerySubmitFailureType, completedAt := some (Repository.resolveCompletedAt now exN.startedAt) }, some TaskService.ServiceError.enqueueError) := by
      have henq2 := hid.symm ▸ henq
      have hmf3 := hid.symm ▸ hmf2
      simp only [TaskService.enqueueLlmTask, hget, henq2]
      simp only [Bool.false_eq_true, if_false, hmf3]
    refine ⟨_, { exN with status := TaskStatus.failed, errorMessage := some celerySubmitFailureMessage, errorType := some celerySubmitFailureType, completedAt := some (Repository.resolveCompletedAt now exN.startedAt) }, hservice, ?_, ?_, hcid2, rfl, rfl, rfl⟩
    · exact getById_updateTask hget1 rfl
    · refine List.mem_map.mpr ⟨exN, ?_, by simp⟩
      show exN ∈ db1.executions
      rw [hexecs]
      exact List.mem_append_right _ (List.mem_singleton.mpr rfl)
  · intro staged db0 now'
    exact batchDispatchPhase_frame staged db0

/-- C5 counterexample: the strings actually stored on a dispatch failure are
`"Failed to submit task to Celery"` / `"TaskEnqueueError"`, not the
`"Failed to submit to broker"` / `"EnqueueError"` stated by the claim. -/
theorem C5_dispatch_failure_strings_counterexample :
    ((TaskService.enqueueLlmTask exDbFresh 1 "d1" false false 10).1.executions.map
      (fun e => (e.errorMessage, e.errorType))) =
      [(some celerySubmitFailureMessage, some celerySubmitFailureType)] ∧
    (TaskService.enqueueLlmTask exDbFresh 1 "d1" false false 10).2 =
      some TaskService.ServiceError.enqueueError ∧
    celerySubmitFailureMessage ≠ specBrokerFailureMessage ∧
    celerySubmitFailureType ≠ specEnqueueErrorType :=
  ⟨rfl, rfl, by decide, by decide⟩

/-- C5 witness: on the concrete fresh task, a failing dispatch leaves the
task failed with the Celery strings and the error raised. -/
theorem C5_dispatch_failure_marking_witness :
    ∃ db' ex, TaskService.enqueueLlmTask exDbFresh 1 "d1" false false 10 =
        (db', some TaskService.ServiceError.enqueueError) ∧
      Repository.getById db' 1 = some { exTaskFresh with retryCount := if false then exTaskFresh.retryCount + 1 else exTaskFresh.retryCount, status := TaskStatus.failed, startedAt := none, completedAt := some 10, output := none, errorMessage := some celerySubmitFailureMessage } ∧
      ex ∈ db'.executions ∧ ex.celeryTaskId = "d1" ∧
      ex.status = TaskStatus.failed ∧
      ex.errorMessage = some celerySubmitFailureMessage ∧
      ex.errorType = some celerySubmitFailureType :=
  (C5_dispatch_failure_marking exDbFresh 1 "d1" false 10 exTaskFresh rfl).1

/-- C6 (code evaluation at the failing input): `TaskService.list_tasks`
raises `AttributeError` on every valid `TaskListInput` — the service reads
`data.status_filter` (and `data.query`), but the pydantic schema declares
only `limit` and `offset`, so the call never reaches `Repository.list`. -/
theorem C6_list_tasks_attribute_error (db : DB) (data : TaskListInput) :
    TaskService.listTasks db data =
      Except.error (PyError.attributeError attrStatusFilter) := rfl

/-- C7: completed_at derivation — `_resolve_completed_at` is exactly
`max(now, started_at)` (`now` when `started_at` is null), and each of
`mark_cancelled`, `mark_completed` and `mark_failed` stores exactly this
value on the task row (and on the updated attempt row, from the attempt's
own `started_at`), so stored `completed_at` is never below a present
`started_at`. -/
theorem C7_completed_at_spec (db : DB) (tid : Nat) (cid : String) (task : Task)
    (output : String) (mn : Option String) (pt ct tt : Option Int)
    (em et reason : String) (now : Int)
    (hget : Repository.getById db tid = some task) :
    (Repository.resolveCompletedAt now none = now ∧
      (∀ s : Int, Repository.resolveCompletedAt now (some s) = max now s) ∧
      (∀ s : Int, s ≤ Repository.resolveCompletedAt now (some s) ∧
        now ≤ Repository.resolveCompletedAt now (some s))) ∧
    (∃ db1, Repository.markCancelled db tid reason now = some db1 ∧
      Repository.getById db1 tid = some { task with status := TaskStatus.cancelled, errorMessage := some reason, completedAt := some (Repository.resolveCompletedAt now task.startedAt) } ∧
      (∀ s, task.startedAt = some s →
        s ≤ Repository.resolveCompletedAt now task.startedAt)) ∧
    (task.status ≠ TaskStatus.cancelled →
      ¬ (task.status = TaskStatus.completed ∨ task.status = TaskStatus.failed) →
      Repository.isLatestExecution db tid cid = true →
      (∃ db2, Repository.markCompleted db tid cid output mn pt ct tt now = some db2 ∧
        Repository.getById db2 tid = some { task with status := TaskStatus.completed, output := some output, errorMessage := none, completedAt := some (Repository.resolveCompletedAt now task.startedAt) } ∧
        (∀ e, Repository.getExecutionByCeleryTaskId db cid = some e →
          ∃ x ∈ db2.executions, x.startedAt = e.startedAt ∧
            x.completedAt = some (Repository.resolveCompletedAt now e.startedAt) ∧
            ∀ s, e.startedAt = some s →
              s ≤ Repository.resolveCompletedAt now e.startedAt)) ∧
      (∃ db3, Repository.markFailed db tid cid em et now = some db3 ∧
        Repository.getById db3 tid = some { task with status := TaskStatus.failed, errorMessage := some em, completedAt := some (Repository.resolveCompletedAt now task.startedAt) } ∧
        (∀ e, Repository.getExecutionByCeleryTaskId db cid = some e →
          ∃ x ∈ db3.executions, x.startedAt = e.startedAt ∧
            x.completedAt = some (Repository.resolveCompletedAt now e.startedAt) ∧
            ∀ s, e.startedAt = some s →
              s ≤ Repository.resolveCompletedAt now e.startedAt))) := by
  refine ⟨⟨rfl, fun s => resolve_eq_max now s, fun s => ?_⟩, ?_, ?_⟩
  · rw [resolve_eq_max]
    exact ⟨le_max_right now s, le_max_left now s⟩
  · cases hlatest : Repository.getLatestExecutionForTask db tid with
    | none =>
      refine ⟨Repository.updateTask db { task with status := TaskStatus.cancelled, errorMessage := some reason, completedAt := some (Repository.resolveCompletedAt now task.startedAt) }, ?_, getById_updateTask hget rfl, ?_⟩
      · simp only [markCancelled_eq hget, hlatest]
      · intro s hs
        rw [hs, resolve_eq_max]
        exact le_max_right now s
    | some le =>
      by_cases hles : le.status = TaskStatus.pending ∨ le.status = TaskStatus.queued ∨
          le.status = TaskStatus.running
      · refine ⟨Repository.updateExecution (Repository.updateTask db { task with status := TaskStatus.cancelled, errorMessage := some reason, completedAt := some (Repository.resolveCompletedAt now task.startedAt) }) { le with status := TaskStatus.cancelled, errorMessage := some reason, errorType := some taskCancelledType, completedAt := some (Repository.resolveCompletedAt now le.startedAt) }, ?_, getById_updateTask hget rfl, ?_⟩
        · simp only [markCancelled_eq hget, hlatest]
          rw [if_pos hles]
        · intro s hs
          rw [hs, resolve_eq_max]
          exact le_max_right now s
      · refine ⟨Repository.updateTask db { task with status := TaskStatus.cancelled, errorMessage := some reason, completedAt := some (Repository.resolveCompletedAt now task.startedAt) }, ?_, getById_updateTask hget rfl, ?_⟩
        · simp only [markCancelled_eq hget, hlatest]
          rw [if_neg hles]
        · intro s hs
          rw [hs, resolve_eq_max]
          exact le_max_right now s
  · intro hnc hterm hisl
    constructor
    · rw [markCompleted_success_eq hget hnc hterm hisl]
      cases hexec : Repository.getExecutionByCeleryTaskId db cid with
      | none =>
        refine ⟨_, rfl, getById_updateTask hget rfl, ?_⟩
        intro e he
        cases he
      | some e =>
        refine ⟨_, rfl, getById_updateTask hget rfl, ?_⟩
        intro e0 he0
        injection he0 with he0
        subst he0
        refine ⟨{ e with status := TaskStatus.completed, output := some output, errorMessage := none, errorType := none, modelName := mn, promptTokens := pt, completionTokens := ct, totalTokens := tt, completedAt := some (Repository.resolveCompletedAt now e.startedAt) }, ?_, rfl, rfl, ?_⟩
        · exact List.mem_map.mpr ⟨e, (getExecByCid_mem hexec).1, by simp⟩
        · intro s hs
          rw [hs, resolve_eq_max]
          exact le_max_right now s
    · rw [markFailed_success_eq hget hnc hterm hisl]
      cases hexec : Repository.getExecutionByCeleryTaskId db cid with
      | none =>
        refine ⟨_, rfl, getById_updateTask hget rfl, ?_⟩
        intro e he
        cases he
      | some e =>
        refine ⟨_, rfl, getById_updateTask hget rfl, ?_⟩
        intro e0 he0
        injection he0 with he0
        subst he0
        refine ⟨{ e with status := TaskStatus.failed, errorMessage := some em, errorType := some et, completedAt := some (Repository.resolveCompletedAt now e.startedAt) }, ?_, rfl, rfl, ?_⟩
        · exact List.mem_map.mpr ⟨e, (getExecByCid_mem hexec).1, by simp⟩
        · intro s hs
          rw [hs, resolve_eq_max]
          exact le_max_right now s

/-- C7 witness: completing the concrete running task at `now = 3`, earlier
than its `started_at = 5`, stores `completed_at = max(3, 5) = 5 ≥
started_at` on the task row. -/
theorem C7_completed_at_spec_witness :
    ∃ db2, Repository.markCompleted exDbRunning 1 "c1" "out" none none none
        none 3 = some db2 ∧
      Repository.getById db2 1 = some { exTaskRunning with status := TaskStatus.completed, output := some "out", errorMessage := none, completedAt := some (Repository.resolveCompletedAt 3 exTaskRunning.startedAt) } ∧
      (∀ e, Repository.getExecutionByCeleryTaskId exDbRunning "c1" = some e →
        ∃ x ∈ db2.executions, x.startedAt = e.startedAt ∧
          x.completedAt = some (Repository.resolveCompletedAt 3 e.startedAt) ∧
          ∀ s, e.startedAt = some s →
            s ≤ Repository.resolveCompletedAt 3 e.startedAt) :=
  ((C7_completed_at_spec exDbRunning 1 "c1" exTaskRunning "out" none none
    none none "err" "ErrType" "reason" 3 rfl).2.2 (by decide) (by decide)
    (by decide)).1

theorem range'_nodup : ∀ (n s : Nat), (List.range' s n).Nodup := by
  intro n
  induction n with
  | zero => intro s; simp
  | succ k ih =>
    intro s
    have hstep : List.range' s (k + 1) = s :: List.range' (s + 1) k :=
      List.range'_succ s k 1
    rw [hstep]
    refine List.nodup_cons.mpr ⟨?_, ih (s + 1)⟩
    intro hmem
    have hb := List.mem_range'_1.mp hmem
    omega

/-- C8: Dense attempt numbering — `_next_attempt_number` is strictly above
every existing attempt number of the task and equals 1 on an attemptless
task; `enqueue_execution` appends an attempt carrying exactly that number;
hence over any sequential history of enqueues starting from no attempts the
task's attempt numbers, in insertion order, are exactly `1, 2, …, k`, with no
duplicate `(task_id, attempt_number)` pair. -/
theorem C8_attempt_numbering (db : DB) (tid : Nat) (cid : String) (inc : Bool)
    (cids : List String) (task : Task) :
    ((db.executions.filter (fun e => e.taskId = tid) = [] →
        Repository.nextAttemptNumber db tid = 1) ∧
      (∀ e ∈ db.executions, e.taskId = tid →
        e.attemptNumber < Repository.nextAttemptNumber db tid)) ∧
    (Repository.getById db tid = some task →
      ∃ db' ex, Repository.enqueueExecution db tid cid inc = some db' ∧
        db'.executions = db.executions ++ [ex] ∧ ex.taskId = tid ∧
        ex.attemptNumber = Repository.nextAttemptNumber db tid ∧
        ex.status = TaskStatus.queued) ∧
    (Repository.getById db tid = some task → attemptsOf db tid = [] →
      attemptsOf (enqueueHistory db tid cids) tid = List.range' 1 cids.length ∧
      (attemptsOf (enqueueHistory db tid cids) tid).Nodup) := by
  refine ⟨⟨?_, fun e he ht => attempt_lt_next he ht⟩, ?_, ?_⟩
  · intro hempty
    unfold Repository.nextAttemptNumber
    rw [hempty]
    rfl
  · intro hget
    obtain ⟨db', ex, henq, hexecs, htid2, hcid2, hst2, hatt2, hstart2, hget2⟩ :=
      @enqueueExecution_full db tid cid inc task hget
    exact ⟨db', ex, henq, hexecs, htid2, hatt2, hst2⟩
  · intro hget hempty
    have hatt0 : attemptsOf db tid = List.range' 1 0 := by simpa using hempty
    have hres := enqueueHistory_attempts cids db tid task 0 hget hatt0
    simp only [Nat.zero_add] at hres
    exact ⟨hres, by rw [hres]; exact range'_nodup cids.length 1⟩

/-- C8 witness: three enqueues against the concrete fresh task produce the
attempt numbers `[1, 2, 3]`, duplicate-free. -/
theorem C8_attempt_numbering_witness :
    attemptsOf (enqueueHistory exDbFresh 1 ["h1", "h2", "h3"]) 1 =
      List.range' 1 3 ∧
    (attemptsOf (enqueueHistory exDbFresh 1 ["h1", "h2", "h3"]) 1).Nodup :=
  (C8_attempt_numbering exDbFresh 1 "x" false ["h1", "h2", "h3"]
    exTaskFresh).2.2 rfl rfl

/-- C9: Bounded lineage traversal — `list_ancestors` returns consecutive
depths `1, …, k` with `k ≤ max_depth` (the loop counter bounds the walk, so
it terminates on arbitrary, even cyclic, `parent_task_id` data), and every
pair returned by `list_ancestors` or `list_descendants` has depth between 1
and `max_depth` and carries a stored task row. -/
theorem C9_lineage_bounds (db : DB) (tid : Nat) (maxDepth : Nat) :
    ((Repository.listAncestors db tid maxDepth).map (fun p => p.2) =
      List.range' 1 (Repository.listAncestors db tid maxDepth).length) ∧
    (Repository.listAncestors db tid maxDepth).length ≤ maxDepth ∧
    (∀ p ∈ Repository.listAncestors db tid maxDepth,
      1 ≤ p.2 ∧ p.2 ≤ maxDepth ∧ p.1 ∈ db.tasks) ∧
    (∀ p ∈ Repository.listDescendants db tid maxDepth,
      1 ≤ p.2 ∧ p.2 ≤ maxDepth ∧ p.1 ∈ db.tasks) := by
  have hdesc : ∀ p ∈ Repository.listDescendants db tid maxDepth,
      1 ≤ p.2 ∧ p.2 ≤ maxDepth ∧ p.1 ∈ db.tasks := by
    intro p hp
    have hb := listDescendantsAux_bounds db maxDepth [tid] 1 p hp
    exact ⟨hb.1, by omega, hb.2.2⟩
  cases hg : Repository.getById db tid with
  | none =>
    have hanc : Repository.listAncestors db tid maxDepth = [] := by
      simp [Repository.listAncestors, hg]
    rw [hanc]
    refine ⟨by simp, by simp, by simp, hdesc⟩
  | some current =>
    have hanc : Repository.listAncestors db tid maxDepth =
        Repository.listAncestorsAux db maxDepth current.parentTaskId 1 := by
      simp [Repository.listAncestors, hg]
    rw [hanc]
    refine ⟨listAncestorsAux_depths db maxDepth current.parentTaskId 1,
      listAncestorsAux_len db maxDepth current.parentTaskId 1, ?_, hdesc⟩
    intro p hp
    have hb := listAncestorsAux_bounds db maxDepth current.parentTaskId 1 p hp
    exact ⟨hb.1, by omega, hb.2.2⟩

/-- C9 witness: in the concrete three-task chain the grandparent is returned
at depth 2, within the bound 10 and among the stored rows. -/
theorem C9_lineage_bounds_witness :
    1 ≤ (exChainRoot, 2).2 ∧ (exChainRoot, 2).2 ≤ 10 ∧
      (exChainRoot, 2).1 ∈ exDbChain.tasks :=
  (C9_lineage_bounds exDbChain 3 10).2.2.1 (exChainRoot, 2) (by decide)

/-- C10: On a cancelled task, `mark_completed` and `mark_failed` skip the
latest-attempt guard: whichever attempt row matches the caller's dispatch id
— here an earlier, already-terminal (failed) attempt that is not the latest
— has its status overwritten to `cancelled`, while the task rows (and in
particular the cancelled task row) are untouched. -/
theorem C10_cancelled_callback_overwrites (db : DB) (tid : Nat) (cid : String)
    (task : Task) (e latest : TaskExecution) (output : String)
    (mn : Option String) (pt ct tt : Option Int) (em et : String) (now : Int)
    (hget : Repository.getById db tid = some task)
    (hc : task.status = TaskStatus.cancelled)
    (hexec : Repository.getExecutionByCeleryTaskId db cid = some e)
    (heterm : e.status = TaskStatus.failed)
    (hlatest : Repository.getLatestExecutionForTask db tid = some latest)
    (hstale : latest.celeryTaskId ≠ cid) :
    Repository.markCompleted db tid cid output mn pt ct tt now =
      some { db with executions := db.executions.map (fun x => if x.eid = e.eid then { e with status := TaskStatus.cancelled } else x) } ∧
    Repository.markFailed db tid cid em et now =
      some { db with executions := db.executions.map (fun x => if x.eid = e.eid then { e with status := TaskStatus.cancelled } else x) } := by
  constructor
  · simp only [markCompleted_cancelled_eq hget hc, hexec]
    rfl
  · simp only [markFailed_cancelled_eq hget hc, hexec]
    rfl

/-- C10 witness: in the concrete cancelled state, a late `mark_completed`
carrying the dispatch id of the old failed attempt 1 flips that attempt to
`cancelled` and leaves the task rows alone. -/
theorem C10_cancelled_callback_overwrites_witness :
    Repository.markCompleted exDbCancelled 1 "a1" ("late") none none none
        none 20 =
      some { exDbCancelled with executions := exDbCancelled.executions.map (fun x => if x.eid = exAttemptOne.eid then { exAttemptOne with status := TaskStatus.cancelled } else x) } :=
  (C10_cancelled_callback_overwrites exDbCancelled 1 "a1" exTaskCancelled
    exAttemptOne exAttemptCancelled "late" none none none none "err"
    ("ErrType") 20 rfl rfl (by decide) rfl (by decide) (by decide)).1

end Orchestrator
